import Mathlib

/-!
Shallow embedding of the CHIP-8 virtual machine of this repository
(the `Chip8` class: `reset`, `loadROM`, `emulateCycle`, `executeInstruction`,
`keyPress`, `keyRelease`, `disassembleInstruction`) together with proofs
about the claims of the specification.

JavaScript numbers-or-undefined are modelled by `JsVal`; JS bitwise
operators (which coerce their operands with ToInt32) are modelled by the
`i32*` helpers, exact for the integral values this program manipulates.
Array reads out of range yield `undefined`, modelled by `JsVal.undefined`.
`console.warn` diagnostics are recorded in the `warnLog` field.
-/

namespace Chip8Sem

/-- A JavaScript value as it occurs in this program: an (integral) number,
`undefined`, or `NaN`. -/
inductive JsVal where
  | num (n : Int)
  | undefined
  | nan
deriving DecidableEq, Repr

/-- The 32 low bits of an integer, as a natural number (JS ToUint32 of an
integral value). -/
def int32bits (n : Int) : Nat := (n % 4294967296).toNat

/-- Reinterpret 32 bits as a signed 32-bit integer (two's complement). -/
def ofInt32bits (m : Nat) : Int :=
  if m < 2147483648 then (m : Int) else (m : Int) - 4294967296

/-- JS ToInt32 on an integral number; `undefined` and `NaN` coerce to 0. -/
def coerceInt : JsVal → Int
  | .num n => n
  | .undefined => 0
  | .nan => 0

/-- JS bitwise AND on integral values. -/
def i32and (a b : Int) : Int := ofInt32bits (int32bits a &&& int32bits b)

/-- JS bitwise OR on integral values. -/
def i32or (a b : Int) : Int := ofInt32bits (int32bits a ||| int32bits b)

/-- JS bitwise XOR on integral values. -/
def i32xor (a b : Int) : Int := ofInt32bits (int32bits a ^^^ int32bits b)

/-- JS left shift on integral values (shift count a small constant). -/
def i32shl (a : Int) (k : Nat) : Int :=
  ofInt32bits ((int32bits a <<< k) % 4294967296)

/-- JS sign-propagating right shift on integral values. -/
def i32shr (a : Int) (k : Nat) : Int :=
  Int.fdiv (ofInt32bits (int32bits a)) ((2 : Int) ^ k)

/-- JS `+` on two values (numeric addition; `undefined` yields `NaN`). -/
def jsAdd : JsVal → JsVal → JsVal
  | .num m, .num n => .num (m + n)
  | _, _ => .nan

/-- JS `-` on two values. -/
def jsSub : JsVal → JsVal → JsVal
  | .num m, .num n => .num (m - n)
  | _, _ => .nan

/-- JS `*` on two values. -/
def jsMul : JsVal → JsVal → JsVal
  | .num m, .num n => .num (m * n)
  | _, _ => .nan

/-- JS `>` on two values (comparisons involving `NaN`/`undefined` are false). -/
def jsGt : JsVal → JsVal → Bool
  | .num m, .num n => decide (m > n)
  | _, _ => false

/-- JS `===` on two values (`NaN === NaN` is false, `undefined === undefined`
is true). -/
def jsStrictEq : JsVal → JsVal → Bool
  | .num m, .num n => decide (m = n)
  | .undefined, .undefined => true
  | _, _ => false

/-- JS `&` on two values (operands coerced with ToInt32). -/
def jsAndV (a b : JsVal) : JsVal := .num (i32and (coerceInt a) (coerceInt b))

/-- JS `|` on two values. -/
def jsOrV (a b : JsVal) : JsVal := .num (i32or (coerceInt a) (coerceInt b))

/-- JS `^` on two values. -/
def jsXorV (a b : JsVal) : JsVal := .num (i32xor (coerceInt a) (coerceInt b))

/-- JS `>>` on a value by a constant. -/
def jsShrV (a : JsVal) (k : Nat) : JsVal := .num (i32shr (coerceInt a) k)

/-- JS `<<` on a value by a constant. -/
def jsShlV (a : JsVal) (k : Nat) : JsVal := .num (i32shl (coerceInt a) k)

/-- JS `%` on integral numbers (remainder has the sign of the dividend). -/
def jsRem (a b : Int) : Int :=
  if a < 0 then -((-a) % b) else a % b

/-- JS `%` on two values. -/
def jsRemV : JsVal → JsVal → JsVal
  | .num m, .num n => .num (jsRem m n)
  | _, _ => .nan

/-- `Math.floor(a / d)` for an integral numerator (floor division). -/
def jsFloorDiv : JsVal → Int → JsVal
  | .num m, d => .num (Int.fdiv m d)
  | _, _ => .nan

/-- Pointwise update of an `Int`-indexed store (a JS array used as an
object: negative and oversized indices are ordinary properties). -/
def upd (f : Int → JsVal) (k : Int) (x : JsVal) : Int → JsVal :=
  fun a => if a = k then x else f a

/-- Pointwise update of a boolean store (the `keys` array). -/
def updB (f : Int → Bool) (k : Int) (x : Bool) : Int → Bool :=
  fun a => if a = k then x else f a

/-- Pointwise update of the display at a pixel. -/
def upd2 (f : Int → Int → Int) (r c : Int) (x : Int) : Int → Int → Int :=
  fun b a => if b = r ∧ a = c then x else f b a

/-- Read an `Int`-indexed store at a `JsVal` index: `obj[undefined]` and
`obj[NaN]` are unset properties, hence `undefined`. -/
def readAt (f : Int → JsVal) : JsVal → JsVal
  | .num p => f p
  | _ => .undefined

/-- Read the `keys` store at a `JsVal` index (missing property is falsy). -/
def readKeys (f : Int → Bool) : JsVal → Bool
  | .num p => f p
  | _ => false

/-- The machine state of the `Chip8` class.  `memory`, `v` and `stack` are
JS arrays, modelled as total maps from `Int` with `undefined` outside the
initialised range; `display` cells are only ever read and written at the
in-range indices produced by the draw code.  `warnLog` records the
`console.warn` messages issued so far. -/
structure Chip8 where
  memory : Int → JsVal
  v : Int → JsVal
  i : JsVal
  pc : JsVal
  stack : Int → JsVal
  sp : Int
  delayTimer : JsVal
  soundTimer : JsVal
  display : Int → Int → Int
  keys : Int → Bool
  drawFlag : Bool
  paused : Bool
  speed : Int
  lastInstruction : Option Int
  waitingForKeyPress : Bool
  keyRegister : Int
  warnLog : List String

/-- The 80-byte fontset copied into low memory by `reset()`. -/
def fontset : List Int :=
  [0xF0, 0x90, 0x90, 0x90, 0xF0,
   0x20, 0x60, 0x20, 0x20, 0x70,
   0xF0, 0x10, 0xF0, 0x80, 0xF0,
   0xF0, 0x10, 0xF0, 0x10, 0xF0,
   0x90, 0x90, 0xF0, 0x10, 0x10,
   0xF0, 0x80, 0xF0, 0x10, 0xF0,
   0xF0, 0x80, 0xF0, 0x90, 0xF0,
   0xF0, 0x10, 0x20, 0x40, 0x40,
   0xF0, 0x90, 0xF0, 0x90, 0xF0,
   0xF0, 0x90, 0xF0, 0x10, 0xF0,
   0xF0, 0x90, 0xF0, 0x90, 0x90,
   0xE0, 0x90, 0xE0, 0x90, 0xE0,
   0xF0, 0x80, 0x80, 0x80, 0xF0,
   0xE0, 0x90, 0x90, 0x90, 0xE0,
   0xF0, 0x80, 0xF0, 0x80, 0xF0,
   0xF0, 0x80, 0xF0, 0x80, 0x80]

/-- The state produced by `reset()`: memory zero-filled on 0..4095 with the
fontset copied to 0..79, registers and stack zero on their index ranges
(`undefined` outside, as for any JS array), `pc = 0x200`, all flags clear. -/
def resetState : Chip8 where
  memory := fun a =>
    if 0 ≤ a ∧ a < 80 then .num (fontset.getD a.toNat 0)
    else if 0 ≤ a ∧ a < 4096 then .num 0 else .undefined
  v := fun r => if 0 ≤ r ∧ r < 16 then .num 0 else .undefined
  i := .num 0
  pc := .num 0x200
  stack := fun k => if 0 ≤ k ∧ k < 16 then .num 0 else .undefined
  sp := 0
  delayTimer := .num 0
  soundTimer := .num 0
  display := fun _ _ => 0
  keys := fun _ => false
  drawFlag := false
  paused := false
  speed := 10
  lastInstruction := none
  waitingForKeyPress := false
  keyRegister := 0
  warnLog := []

/-- The write loop of `loadROM`: `memory[0x200 + i] = romBuffer[i]` for every
index of the buffer (no size check in the source). -/
def writeROM (mem : Int → JsVal) (addr : Int) : List Int → (Int → JsVal)
  | [] => mem
  | b :: rest => writeROM (upd mem addr (.num b)) (addr + 1) rest

/-- `loadROM(romBuffer)`: copies the buffer into memory starting at 0x200. -/
def loadROM (s : Chip8) (rom : List Int) : Chip8 :=
  { s with memory := writeROM s.memory 0x200 rom }

/-- The fetch of `executeInstruction`:
`(memory[pc] << 8) | memory[pc + 1]`. -/
def fetchOpcode (s : Chip8) : Int :=
  i32or (i32shl (coerceInt (readAt s.memory s.pc)) 8)
        (coerceInt (readAt s.memory (jsAdd s.pc (.num 1))))

/-- Write an `Int`-indexed store at a `JsVal` index.  A non-numeric index
creates a string-keyed property that this program never reads back; such
writes are dropped here. -/
def writeAt (f : Int → JsVal) (idx : JsVal) (x : JsVal) : Int → JsVal :=
  match idx with
  | .num p => upd f p x
  | _ => f

/-- JS `Number.prototype.toString(16)` for an integral value. -/
def hexStr (k : Int) : String :=
  if k < 0 then "-" ++ String.mk (Nat.toDigits 16 (-k).toNat)
  else String.mk (Nat.toDigits 16 k.toNat)

/-- The `console.warn` message of the executor's default branches. -/
def warnMsg (w : Int) : String := "Unknown opcode: " ++ hexStr w

/-- One sprite byte of the DXYN loop: `memory[i + row]`. -/
def spByte (mem : Int → JsVal) (iv : JsVal) (row : Nat) : JsVal :=
  readAt mem (jsAdd iv (.num row))

/-- The DXYN bit test `(spriteByte & (0x80 >> col)) !== 0`. -/
def sprBit (mem : Int → JsVal) (iv : JsVal) (row col : Nat) : Bool :=
  !(jsStrictEq (jsAndV (spByte mem iv row) (.num (i32shr 0x80 col))) (.num 0))

/-- The wrapped x-coordinate `(xCoord + col) % DISPLAY_WIDTH`. -/
def pxAt (xC : Int) (col : Nat) : Int := jsRem (xC + col) 64

/-- The wrapped y-coordinate `(yCoord + row) % DISPLAY_HEIGHT`. -/
def pyAt (yC : Int) (row : Nat) : Int := jsRem (yC + row) 32

/-- The body of the DXYN inner (column) loop: on a set sprite bit, record a
collision if the pixel is lit, then XOR the pixel.  The pair carries the
display and the pending value of `v[0xF]`. -/
def drawPixel (mem : Int → JsVal) (iv : JsVal) (xC yC : Int) (row : Nat)
    (st : (Int → Int → Int) × Int) (col : Nat) : (Int → Int → Int) × Int :=
  if sprBit mem iv row col then
    let py := pyAt yC row
    let px := pxAt xC col
    let vf := if st.1 py px = 1 then 1 else st.2
    (upd2 st.1 py px (i32xor (st.1 py px) 1), vf)
  else st

/-- The DXYN inner loop over `col` in `0..8`. -/
def drawRow (mem : Int → JsVal) (iv : JsVal) (xC yC : Int)
    (st : (Int → Int → Int) × Int) (row : Nat) : (Int → Int → Int) × Int :=
  (List.range 8).foldl (drawPixel mem iv xC yC row) st

/-- The DXYN outer loop over `row` in `0..height`, starting from
`v[0xF] = 0`. -/
def drawSprite (mem : Int → JsVal) (iv : JsVal) (xC yC : Int) (n : Nat)
    (disp : Int → Int → Int) : (Int → Int → Int) × Int :=
  (List.range n).foldl (drawRow mem iv xC yC) (disp, 0)

/-- Pixel `(py, px)` is targeted by one of the first `k` columns of sprite
row `row`. -/
def colHit (mem : Int → JsVal) (iv : JsVal) (xC yC : Int) (row k : Nat)
    (py px : Int) : Prop :=
  ∃ col, col < k ∧ sprBit mem iv row col = true ∧
    py = pyAt yC row ∧ px = pxAt xC col

/-- One of the first `k` columns of sprite row `row` lands on a lit pixel
of display `e`. -/
def colCollide (mem : Int → JsVal) (iv : JsVal) (xC yC : Int) (row k : Nat)
    (e : Int → Int → Int) : Prop :=
  ∃ col, col < k ∧ sprBit mem iv row col = true ∧
    e (pyAt yC row) (pxAt xC col) = 1

/-- Pixel `(py, px)` is targeted by one of the first `m` rows of the
sprite. -/
def sprHit (mem : Int → JsVal) (iv : JsVal) (xC yC : Int) (m : Nat)
    (py px : Int) : Prop :=
  ∃ row, row < m ∧ colHit mem iv xC yC row 8 py px

/-- One of the first `m` rows of the sprite lands on a lit pixel of
display `d`. -/
def sprCollide (mem : Int → JsVal) (iv : JsVal) (xC yC : Int) (m : Nat)
    (d : Int → Int → Int) : Prop :=
  ∃ row, row < m ∧ colCollide mem iv xC yC row 8 d

instance instDecColHit (mem : Int → JsVal) (iv : JsVal) (xC yC : Int)
    (row k : Nat) (py px : Int) :
    Decidable (colHit mem iv xC yC row k py px) := by
  unfold colHit
  infer_instance

instance instDecColCollide (mem : Int → JsVal) (iv : JsVal) (xC yC : Int)
    (row k : Nat) (e : Int → Int → Int) :
    Decidable (colCollide mem iv xC yC row k e) := by
  unfold colCollide
  infer_instance

instance instDecSprHit (mem : Int → JsVal) (iv : JsVal) (xC yC : Int)
    (m : Nat) (py px : Int) : Decidable (sprHit mem iv xC yC m py px) := by
  unfold sprHit
  infer_instance

instance instDecSprCollide (mem : Int → JsVal) (iv : JsVal) (xC yC : Int)
    (m : Nat) (d : Int → Int → Int) :
    Decidable (sprCollide mem iv xC yC m d) := by
  unfold sprCollide
  infer_instance

/-- The decode-and-execute `switch` of `executeInstruction`, applied to the
state in which `lastInstruction` is set and `pc` has already advanced by 2.
`rnd` is the value `Math.floor(Math.random() * 0xFF)` would produce. -/
def execOp (rnd : Int) (w : Int) (s : Chip8) : Chip8 :=
  let x := i32shr (i32and w 0x0F00) 8
  let y := i32shr (i32and w 0x00F0) 4
  let n := i32and w 0x000F
  let nn := i32and w 0x00FF
  let nnn := i32and w 0x0FFF
  match i32and w 0xF000 with
  | 0x0000 =>
    match w with
    | 0x00E0 => { s with display := fun _ _ => 0, drawFlag := true }
    | 0x00EE => { s with sp := s.sp - 1, pc := s.stack (s.sp - 1) }
    | _ => { s with warnLog := s.warnLog ++ [warnMsg w] }
  | 0x1000 => { s with pc := .num nnn }
  | 0x2000 =>
    { s with stack := upd s.stack s.sp s.pc, sp := s.sp + 1, pc := .num nnn }
  | 0x3000 =>
    if jsStrictEq (s.v x) (.num nn) then { s with pc := jsAdd s.pc (.num 2) }
    else s
  | 0x4000 =>
    if !jsStrictEq (s.v x) (.num nn) then { s with pc := jsAdd s.pc (.num 2) }
    else s
  | 0x5000 =>
    if jsStrictEq (s.v x) (s.v y) then { s with pc := jsAdd s.pc (.num 2) }
    else s
  | 0x6000 => { s with v := upd s.v x (.num nn) }
  | 0x7000 => { s with v := upd s.v x (jsAndV (jsAdd (s.v x) (.num nn)) (.num 0xFF)) }
  | 0x8000 =>
    match i32and w 0x000F with
    | 0x0000 => { s with v := upd s.v x (s.v y) }
    | 0x0001 => { s with v := upd s.v x (jsOrV (s.v x) (s.v y)) }
    | 0x0002 => { s with v := upd s.v x (jsAndV (s.v x) (s.v y)) }
    | 0x0003 => { s with v := upd s.v x (jsXorV (s.v x) (s.v y)) }
    | 0x0004 =>
      let sum := jsAdd (s.v x) (s.v y)
      let v1 := upd s.v 15 (if jsGt sum (.num 0xFF) then .num 1 else .num 0)
      { s with v := upd v1 x (jsAndV sum (.num 0xFF)) }
    | 0x0005 =>
      let v1 := upd s.v 15 (if jsGt (s.v x) (s.v y) then .num 1 else .num 0)
      { s with v := upd v1 x (jsAndV (jsSub (v1 x) (v1 y)) (.num 0xFF)) }
    | 0x0006 =>
      let v1 := upd s.v 15 (jsAndV (s.v x) (.num 0x1))
      { s with v := upd v1 x (jsShrV (v1 x) 1) }
    | 0x0007 =>
      let v1 := upd s.v 15 (if jsGt (s.v y) (s.v x) then .num 1 else .num 0)
      { s with v := upd v1 x (jsAndV (jsSub (v1 y) (v1 x)) (.num 0xFF)) }
    | 0x000E =>
      let v1 := upd s.v 15 (jsShrV (jsAndV (s.v x) (.num 0x80)) 7)
      { s with v := upd v1 x (jsAndV (jsShlV (v1 x) 1) (.num 0xFF)) }
    | _ => { s with warnLog := s.warnLog ++ [warnMsg w] }
  | 0x9000 =>
    if !jsStrictEq (s.v x) (s.v y) then { s with pc := jsAdd s.pc (.num 2) }
    else s
  | 0xA000 => { s with i := .num nnn }
  | 0xB000 => { s with pc := jsAdd (.num nnn) (s.v 0) }
  | 0xC000 => { s with v := upd s.v x (.num (i32and rnd nn)) }
  | 0xD000 =>
    let xC := i32and (coerceInt (s.v x)) 0xFF
    let yC := i32and (coerceInt (s.v y)) 0xFF
    let dres := drawSprite s.memory s.i xC yC n.toNat s.display
    { s with display := dres.1, v := upd s.v 15 (.num dres.2), drawFlag := true }
  | 0xE000 =>
    match i32and w 0x00FF with
    | 0x009E =>
      if readKeys s.keys (s.v x) then { s with pc := jsAdd s.pc (.num 2) }
      else s
    | 0x00A1 =>
      if !readKeys s.keys (s.v x) then { s with pc := jsAdd s.pc (.num 2) }
      else s
    | _ => { s with warnLog := s.warnLog ++ [warnMsg w] }
  | 0xF000 =>
    match i32and w 0x00FF with
    | 0x0007 => { s with v := upd s.v x s.delayTimer }
    | 0x000A => { s with waitingForKeyPress := true, keyRegister := x }
    | 0x0015 => { s with delayTimer := s.v x }
    | 0x0018 => { s with soundTimer := s.v x }
    | 0x001E =>
      let i1 := jsAdd s.i (s.v x)
      if jsGt i1 (.num 0xFFF) then
        { s with v := upd s.v 15 (.num 1), i := jsAndV i1 (.num 0xFFF) }
      else { s with i := i1 }
    | 0x0029 => { s with i := jsMul (s.v x) (.num 5) }
    | 0x0033 =>
      let m1 := writeAt s.memory s.i (jsFloorDiv (s.v x) 100)
      let m2 := writeAt m1 (jsAdd s.i (.num 1))
                  (jsFloorDiv (jsRemV (s.v x) (.num 100)) 10)
      { s with memory := writeAt m2 (jsAdd s.i (.num 2)) (jsRemV (s.v x) (.num 10)) }
    | 0x0055 =>
      let mem1 := (List.range (x.toNat + 1)).foldl
        (fun m reg => writeAt m (jsAdd s.i (.num reg)) (s.v reg)) s.memory
      { s with memory := mem1 }
    | 0x0065 =>
      let v1 := (List.range (x.toNat + 1)).foldl
        (fun vv reg => upd vv reg (readAt s.memory (jsAdd s.i (.num reg)))) s.v
      { s with v := v1 }
    | _ => { s with warnLog := s.warnLog ++ [warnMsg w] }
  | _ => { s with warnLog := s.warnLog ++ [warnMsg w] }

/-- `executeInstruction()`: fetch, record `lastInstruction`, advance `pc`
by 2, then decode and execute. -/
def executeInstruction (rnd : Int) (s : Chip8) : Chip8 :=
  let w := fetchOpcode s
  execOp rnd w { s with lastInstruction := some w, pc := jsAdd s.pc (.num 2) }

/-- `keyPress(keyCode)`: record the key and, when waiting for a key press,
latch it into `v[keyRegister]` and clear the wait flag. -/
def keyPress (s : Chip8) (keyCode : Int) : Chip8 :=
  let s1 := { s with keys := updB s.keys keyCode true }
  if s1.waitingForKeyPress then
    { s1 with v := upd s1.v s1.keyRegister (.num keyCode),
              waitingForKeyPress := false }
  else s1

/-- `keyRelease(keyCode)`. -/
def keyRelease (s : Chip8) (keyCode : Int) : Chip8 :=
  { s with keys := updB s.keys keyCode false }

/-- The timer update at the end of `emulateCycle`: each timer is decremented
when strictly positive. -/
def decTimers (s : Chip8) : Chip8 :=
  { s with
    delayTimer :=
      if jsGt s.delayTimer (.num 0) then jsSub s.delayTimer (.num 1)
      else s.delayTimer,
    soundTimer :=
      if jsGt s.soundTimer (.num 0) then jsSub s.soundTimer (.num 1)
      else s.soundTimer }

/-- The instruction batch of `emulateCycle`: `k` loop iterations, each of
which executes one instruction unless `waitingForKeyPress` is set.  `idx`
numbers the iterations so each can draw its own random value. -/
def execBatchAux (rnd : Nat → Int) (idx : Nat) : Nat → Chip8 → Chip8
  | 0, s => s
  | k + 1, s =>
    execBatchAux rnd (idx + 1) k
      (if s.waitingForKeyPress then s else executeInstruction (rnd idx) s)

/-- `emulateCycle()`: a no-op when paused; otherwise `speed` loop iterations
followed by the timer update. -/
def emulateCycle (rnd : Nat → Int) (s : Chip8) : Chip8 :=
  if s.paused then s
  else decTimers (execBatchAux rnd 0 s.speed.toNat s)

/-- `Number.prototype.toString()` (base 10) for a nonnegative integral
value, as used for `n` in the DRW disassembly. -/
def decStr (k : Int) : String := String.mk (Nat.toDigits 10 k.toNat)

/-- The string `UNKNOWN (<hex>)` returned by the disassembler for opcodes
it does not recognise. -/
def unknownStr (op : Int) : String := "UNKNOWN (" ++ hexStr op ++ ")"

/-- `disassembleInstruction(opcode)`: opcode to mnemonic. -/
def disassembleInstruction (op : Int) : String :=
  let x := i32shr (i32and op 0x0F00) 8
  let y := i32shr (i32and op 0x00F0) 4
  let n := i32and op 0x000F
  let nn := i32and op 0x00FF
  let nnn := i32and op 0x0FFF
  match i32and op 0xF000 with
  | 0x0000 =>
    match op with
    | 0x00E0 => "CLS"
    | 0x00EE => "RET"
    | _ => "SYS " ++ hexStr nnn
  | 0x1000 => "JP " ++ hexStr nnn
  | 0x2000 => "CALL " ++ hexStr nnn
  | 0x3000 => "SE V" ++ hexStr x ++ ", " ++ hexStr nn
  | 0x4000 => "SNE V" ++ hexStr x ++ ", " ++ hexStr nn
  | 0x5000 => "SE V" ++ hexStr x ++ ", V" ++ hexStr y
  | 0x6000 => "LD V" ++ hexStr x ++ ", " ++ hexStr nn
  | 0x7000 => "ADD V" ++ hexStr x ++ ", " ++ hexStr nn
  | 0x8000 =>
    match i32and op 0x000F with
    | 0x0000 => "LD V" ++ hexStr x ++ ", V" ++ hexStr y
    | 0x0001 => "OR V" ++ hexStr x ++ ", V" ++ hexStr y
    | 0x0002 => "AND V" ++ hexStr x ++ ", V" ++ hexStr y
    | 0x0003 => "XOR V" ++ hexStr x ++ ", V" ++ hexStr y
    | 0x0004 => "ADD V" ++ hexStr x ++ ", V" ++ hexStr y
    | 0x0005 => "SUB V" ++ hexStr x ++ ", V" ++ hexStr y
    | 0x0006 => "SHR V" ++ hexStr x
    | 0x0007 => "SUBN V" ++ hexStr x ++ ", V" ++ hexStr y
    | 0x000E => "SHL V" ++ hexStr x
    | _ => unknownStr op
  | 0x9000 => "SNE V" ++ hexStr x ++ ", V" ++ hexStr y
  | 0xA000 => "LD I, " ++ hexStr nnn
  | 0xB000 => "JP V0, " ++ hexStr nnn
  | 0xC000 => "RND V" ++ hexStr x ++ ", " ++ hexStr nn
  | 0xD000 => "DRW V" ++ hexStr x ++ ", V" ++ hexStr y ++ ", " ++ decStr n
  | 0xE000 =>
    match i32and op 0x00FF with
    | 0x009E => "SKP V" ++ hexStr x
    | 0x00A1 => "SKNP V" ++ hexStr x
    | _ => unknownStr op
  | 0xF000 =>
    match i32and op 0x00FF with
    | 0x0007 => "LD V" ++ hexStr x ++ ", DT"
    | 0x000A => "LD V" ++ hexStr x ++ ", K"
    | 0x0015 => "LD DT, V" ++ hexStr x
    | 0x0018 => "LD ST, V" ++ hexStr x
    | 0x001E => "ADD I, V" ++ hexStr x
    | 0x0029 => "LD F, V" ++ hexStr x
    | 0x0033 => "LD B, V" ++ hexStr x
    | 0x0055 => "LD [I], V" ++ hexStr x
    | 0x0065 => "LD V" ++ hexStr x ++ ", [I]"
    | _ => unknownStr op
  | _ => unknownStr op

/-- Whether the executor reports an unknown-opcode diagnostic on `w` (the
warn branches of `execOp` depend only on the opcode, so a canonical state
serves to observe them). -/
def execWarns (w : Int) : Bool := !(execOp 0 w resetState).warnLog.isEmpty

/-! ### Arithmetic facts about the 32-bit helpers -/

theorem int32round (a : Int) (h1 : 0 ≤ a) (h2 : a < 2147483648) :
    ofInt32bits (int32bits a) = a := by
  unfold int32bits ofInt32bits
  rw [Int.emod_eq_of_lt h1 (by omega)]
  rw [Int.toNat_of_nonneg h1, if_pos (by omega : a.toNat < 2147483648)]

theorem int32bits_small (b : Int) (hb0 : 0 ≤ b) (hb : b < 4294967296) :
    int32bits b = b.toNat := by
  unfold int32bits
  rw [Int.emod_eq_of_lt hb0 (by omega)]

theorem ofInt32bits_small (m : Nat) (hm : m < 2147483648) :
    ofInt32bits m = (m : Int) := by
  unfold ofInt32bits
  rw [if_pos hm]

/-- `a & b` for a nonneg mask `b` below `2^31` lands in `[0, b]`. -/
theorem i32and_bounds (a b : Int) (hb0 : 0 ≤ b) (hb : b < 2147483648) :
    0 ≤ i32and a b ∧ i32and a b ≤ b := by
  unfold i32and
  rw [int32bits_small b hb0 (by omega)]
  have hle : int32bits a &&& b.toNat ≤ b.toNat := Nat.and_le_right
  rw [ofInt32bits_small _ (by omega)]
  omega

/-- `a & 0xFF` is `a` modulo 256. -/
theorem i32and_255 (a : Int) : i32and a 255 = a % 256 := by
  unfold i32and
  rw [int32bits_small 255 (by omega) (by omega)]
  rw [show ((255 : Int).toNat) = 2 ^ 8 - 1 from rfl,
      Nat.and_pow_two_sub_one_eq_mod]
  have hM0 : (0 : Int) ≤ a % 4294967296 := Int.emod_nonneg a (by norm_num)
  have hd : a % 4294967296 % 256 = a % 256 := Int.emod_emod_of_dvd a (by norm_num)
  unfold int32bits ofInt32bits
  rw [if_pos (by omega : (a % 4294967296).toNat % 2 ^ 8 < 2147483648)]
  omega

/-- `a & 0xFFF` is `a` modulo 4096. -/
theorem i32and_4095 (a : Int) : i32and a 4095 = a % 4096 := by
  unfold i32and
  rw [int32bits_small 4095 (by omega) (by omega)]
  rw [show ((4095 : Int).toNat) = 2 ^ 12 - 1 from rfl,
      Nat.and_pow_two_sub_one_eq_mod]
  have hM0 : (0 : Int) ≤ a % 4294967296 := Int.emod_nonneg a (by norm_num)
  have hd : a % 4294967296 % 4096 = a % 4096 := Int.emod_emod_of_dvd a (by norm_num)
  unfold int32bits ofInt32bits
  rw [if_pos (by omega : (a % 4294967296).toNat % 2 ^ 12 < 2147483648)]
  omega

/-- `a & 0xF` is `a` modulo 16. -/
theorem i32and_15 (a : Int) : i32and a 15 = a % 16 := by
  unfold i32and
  rw [int32bits_small 15 (by omega) (by omega)]
  rw [show ((15 : Int).toNat) = 2 ^ 4 - 1 from rfl,
      Nat.and_pow_two_sub_one_eq_mod]
  have hM0 : (0 : Int) ≤ a % 4294967296 := Int.emod_nonneg a (by norm_num)
  have hd : a % 4294967296 % 16 = a % 16 := Int.emod_emod_of_dvd a (by norm_num)
  unfold int32bits ofInt32bits
  rw [if_pos (by omega : (a % 4294967296).toNat % 2 ^ 4 < 2147483648)]
  omega

/-- `a & 0x1` is `a` modulo 2. -/
theorem i32and_1 (a : Int) : i32and a 1 = a % 2 := by
  unfold i32and
  rw [int32bits_small 1 (by omega) (by omega)]
  rw [show ((1 : Int).toNat) = 2 ^ 1 - 1 from rfl,
      Nat.and_pow_two_sub_one_eq_mod]
  have hM0 : (0 : Int) ≤ a % 4294967296 := Int.emod_nonneg a (by norm_num)
  have hd : a % 4294967296 % 2 = a % 2 := Int.emod_emod_of_dvd a (by norm_num)
  unfold int32bits ofInt32bits
  rw [if_pos (by omega : (a % 4294967296).toNat % 2 ^ 1 < 2147483648)]
  omega

/-- The register index `x = (op & 0x0F00) >> 8` always lies in `0..15`. -/
theorem decodeX_bounds (w : Int) :
    0 ≤ i32shr (i32and w 0x0F00) 8 ∧ i32shr (i32and w 0x0F00) 8 < 16 := by
  obtain ⟨h0, h1⟩ := i32and_bounds w 0x0F00 (by omega) (by omega)
  unfold i32shr
  rw [int32round _ h0 (by omega)]
  rw [Int.fdiv_eq_ediv _ (by norm_num)]
  have h2 : i32and w 0x0F00 / 2 ^ 8 ≤ 3840 / 2 ^ 8 :=
    Int.ediv_le_ediv (by norm_num) h1
  have h3 : 0 ≤ i32and w 0x0F00 / 2 ^ 8 := Int.ediv_nonneg h0 (by norm_num)
  norm_num at h2 h3 ⊢
  omega

/-- The nibble `n = op & 0x000F` always lies in `0..15`. -/
theorem decodeN_bounds (w : Int) :
    0 ≤ i32and w 0x000F ∧ i32and w 0x000F < 16 :=
  ⟨(i32and_bounds w 15 (by omega) (by omega)).1,
   by have := (i32and_bounds w 15 (by omega) (by omega)).2; omega⟩

/-- The address `nnn = op & 0x0FFF` always lies in `0..0xFFF`. -/
theorem decodeNNN_bounds (w : Int) :
    0 ≤ i32and w 0x0FFF ∧ i32and w 0x0FFF ≤ 0xFFF :=
  i32and_bounds w 0x0FFF (by omega) (by omega)

/-! ### The instruction batch while waiting for a key press -/

theorem execBatchAux_waiting (rnd : Nat → Int) (idx k : Nat) (s : Chip8)
    (h : s.waitingForKeyPress = true) : execBatchAux rnd idx k s = s := by
  induction k generalizing idx with
  | zero => rfl
  | succ k ih =>
    unfold execBatchAux
    rw [if_pos h]
    exact ih (idx + 1)

/-! ### The write loop of `loadROM` -/

/-- Closed form of the `loadROM` write loop: address `a` receives byte
`a - addr` of the buffer when in range, and is untouched otherwise. -/
theorem writeROM_get (rom : List Int) (mem : Int → JsVal) (addr a : Int) :
    writeROM mem addr rom a =
      if addr ≤ a ∧ a < addr + rom.length then
        .num (rom.getD (a - addr).toNat 0) else mem a := by
  induction rom generalizing mem addr with
  | nil =>
    simp only [writeROM, List.length_nil]
    rw [if_neg (by omega)]
  | cons b rest ih =>
    simp only [writeROM]
    rw [ih]
    by_cases h1 : addr + 1 ≤ a ∧ a < addr + 1 + rest.length
    · rw [if_pos h1, if_pos (by simp only [List.length_cons]; push_cast; omega)]
      have hsz : (a - addr).toNat = (a - (addr + 1)).toNat + 1 := by omega
      simp [hsz]
    · rw [if_neg h1]
      by_cases h2 : a = addr
      · subst h2
        rw [if_pos (by simp only [List.length_cons]; push_cast; omega)]
        simp [upd]
      · rw [if_neg (by simp only [List.length_cons] at h1 ⊢; push_cast at h1 ⊢; omega)]
        simp [upd, h2]

/-! ### C1 — machine invariants after `executeInstruction` -/

/-- C1, counterexample: the claim says every write to `pc` is masked to 12
bits, "including the BNNN jump `PC = (nnn + V[0]) & 0xFFF`".  The source
executes `this.pc = nnn + this.v[0]` with no mask: after `LD V0, 0xFF` and
`JP V0, 0xFFF` (a reachable two-instruction program), `pc = 0x10FE`,
outside `0..0xFFF`. -/
theorem c1_pc_mask_counterexample :
    (executeInstruction 0 (executeInstruction 0
      (loadROM resetState [0x60, 0xFF, 0xBF, 0xFF]))).pc = .num 0x10FE ∧
    ¬ ((0x10FE : Int) ≤ 0xFFF) := by
  constructor
  · decide
  · decide

/-- C1 (corrected): of the claimed invariants, the one on the index
register holds: from a state whose `i` is a number in `0..0xFFF` and whose
registers `V0..VF` hold 8-bit numbers, every instruction leaves `i` a
number in `0..0xFFF` (ANNN stores a 12-bit immediate, FX1E masks on
overflow, FX29 stores at most `255 * 5`).  The invariants on `pc`, `sp`,
the registers and the stack do not hold in the source: see the
counterexample for `pc`; RET/CALL move `sp` past its bounds, and FX65 with
`i + x > 0xFFF` loads `undefined` into registers. -/
theorem c1_index_invariant (rnd w : Int) (s : Chip8) (iv : Int)
    (hw : fetchOpcode s = w)
    (hi : s.i = .num iv) (hi0 : 0 ≤ iv) (hi1 : iv ≤ 0xFFF)
    (hv : ∀ r : Int, 0 ≤ r → r < 16 → ∃ b, s.v r = .num b ∧ 0 ≤ b ∧ b ≤ 255) :
    ∃ j : Int, (executeInstruction rnd s).i = .num j ∧ 0 ≤ j ∧ j ≤ 0xFFF := by
  obtain ⟨hx0, hx1⟩ := decodeX_bounds w
  obtain ⟨b, hb, hb0, hb1⟩ := hv _ hx0 hx1
  simp only [executeInstruction]
  rw [hw]
  unfold execOp
  split
  · split <;> exact ⟨iv, hi, hi0, hi1⟩
  · exact ⟨iv, hi, hi0, hi1⟩
  · exact ⟨iv, hi, hi0, hi1⟩
  · exact ⟨iv, by simp [apply_ite Chip8.i, hi], hi0, hi1⟩
  · exact ⟨iv, by simp [apply_ite Chip8.i, hi], hi0, hi1⟩
  · exact ⟨iv, by simp [apply_ite Chip8.i, hi], hi0, hi1⟩
  · exact ⟨iv, hi, hi0, hi1⟩
  · exact ⟨iv, hi, hi0, hi1⟩
  · split <;> exact ⟨iv, hi, hi0, hi1⟩
  · exact ⟨iv, by simp [apply_ite Chip8.i, hi], hi0, hi1⟩
  · exact ⟨i32and w 0x0FFF, rfl, (decodeNNN_bounds w).1, (decodeNNN_bounds w).2⟩
  · exact ⟨iv, hi, hi0, hi1⟩
  · exact ⟨iv, hi, hi0, hi1⟩
  · exact ⟨iv, hi, hi0, hi1⟩
  · split
    · exact ⟨iv, by simp [apply_ite Chip8.i, hi], hi0, hi1⟩
    · exact ⟨iv, by simp [apply_ite Chip8.i, hi], hi0, hi1⟩
    · exact ⟨iv, hi, hi0, hi1⟩
  · split
    · exact ⟨iv, hi, hi0, hi1⟩
    · exact ⟨iv, hi, hi0, hi1⟩
    · exact ⟨iv, hi, hi0, hi1⟩
    · exact ⟨iv, hi, hi0, hi1⟩
    · simp only [hi, hb, jsAdd, jsGt, apply_ite Chip8.i]
      split
      · refine ⟨(iv + b) % 4096, ?_, ?_, ?_⟩
        · simp only [jsAndV, coerceInt, i32and_4095]
        · exact Int.emod_nonneg _ (by norm_num)
        · have := Int.emod_lt_of_pos (iv + b) (show (0:Int) < 4096 by norm_num)
          omega
      · next hgt =>
        simp only [decide_eq_true_eq] at hgt
        exact ⟨iv + b, rfl, by omega, by omega⟩
    · simp only [hb, jsMul]
      exact ⟨b * 5, rfl, by omega, by omega⟩
    · exact ⟨iv, hi, hi0, hi1⟩
    · exact ⟨iv, hi, hi0, hi1⟩
    · exact ⟨iv, hi, hi0, hi1⟩
    · exact ⟨iv, hi, hi0, hi1⟩
  · exact ⟨iv, hi, hi0, hi1⟩

/-- C1, witness: the index-register invariant applied to `LD I, 0x123`
from reset. -/
theorem c1_index_invariant_witness :
    (executeInstruction 0 (loadROM resetState [0xA1, 0x23])).i ≠ .undefined := by
  obtain ⟨j, hj, _, _⟩ :=
    c1_index_invariant 0 0xA123 (loadROM resetState [0xA1, 0x23]) 0
      (by decide) (by decide) (by decide) (by decide)
      (fun r h0 h1 => ⟨0, by simp [loadROM, resetState, h0, h1], le_refl 0,
        by norm_num⟩)
  simp [hj]

/-! ### C2 — stack faults on RET with SP = 0 and CALL with SP = 16 -/

/-- C2, counterexample: the claim says RET with `SP == 0` is a fault that
logs a diagnostic and leaves `PC`, `SP` and the stack unchanged.  The
source has no guard: from reset with ROM `00 EE`, the pop is performed
(`sp` becomes `-1`, `pc` is loaded from `stack[-1]`, i.e. `undefined`) and
nothing is logged. -/
theorem c2_stack_fault_counterexample :
    (loadROM resetState [0x00, 0xEE]).sp = 0 ∧
    (executeInstruction 0 (loadROM resetState [0x00, 0xEE])).sp = -1 ∧
    (executeInstruction 0 (loadROM resetState [0x00, 0xEE])).pc = .undefined ∧
    (executeInstruction 0 (loadROM resetState [0x00, 0xEE])).warnLog = [] := by
  refine ⟨rfl, ?_, ?_, ?_⟩ <;> decide

/-- C2 (corrected): the source performs the pop/push unguarded.  RET with
`SP == 0` sets `sp = -1` and loads `pc` from `stack[-1]`; CALL with
`SP == 16` writes the return address into `stack[16]`, sets `sp = 17` and
jumps; in both cases no diagnostic is logged. -/
theorem c2_stack_fault_amended (rnd w : Int) (s : Chip8)
    (hw : fetchOpcode s = w) :
    (w = 0x00EE → s.sp = 0 →
      (executeInstruction rnd s).sp = -1 ∧
      (executeInstruction rnd s).pc = s.stack (-1) ∧
      (executeInstruction rnd s).stack = s.stack ∧
      (executeInstruction rnd s).warnLog = s.warnLog) ∧
    (i32and w 0xF000 = 0x2000 → s.sp = 16 →
      (executeInstruction rnd s).sp = 17 ∧
      (executeInstruction rnd s).stack 16 = jsAdd s.pc (.num 2) ∧
      (executeInstruction rnd s).pc = .num (i32and w 0x0FFF) ∧
      (executeInstruction rnd s).warnLog = s.warnLog) := by
  constructor
  · rintro rfl hsp
    have hA : i32and (0x00EE : Int) 0xF000 = 0 := by decide
    simp only [executeInstruction]
    rw [hw]
    simp [execOp, hA, hsp]
  · intro h2 hsp
    simp only [executeInstruction]
    rw [hw]
    simp [execOp, h2, hsp, upd]

/-- C2, witness: the amended theorem applied to a RET at `sp = 0` and a
CALL at `sp = 16`. -/
theorem c2_stack_fault_amended_witness :
    ((executeInstruction 0 (loadROM resetState [0x00, 0xEE])).sp = -1 ∧
     (executeInstruction 0 (loadROM resetState [0x00, 0xEE])).pc =
       (loadROM resetState [0x00, 0xEE]).stack (-1) ∧
     (executeInstruction 0 (loadROM resetState [0x00, 0xEE])).stack =
       (loadROM resetState [0x00, 0xEE]).stack ∧
     (executeInstruction 0 (loadROM resetState [0x00, 0xEE])).warnLog =
       (loadROM resetState [0x00, 0xEE]).warnLog) ∧
    ((executeInstruction 0
        { loadROM resetState [0x2A, 0xBC] with sp := 16 }).sp = 17 ∧
     (executeInstruction 0
        { loadROM resetState [0x2A, 0xBC] with sp := 16 }).stack 16 =
       jsAdd { loadROM resetState [0x2A, 0xBC] with sp := 16 }.pc (.num 2) ∧
     (executeInstruction 0
        { loadROM resetState [0x2A, 0xBC] with sp := 16 }).pc =
       .num (i32and 0x2ABC 0x0FFF) ∧
     (executeInstruction 0
        { loadROM resetState [0x2A, 0xBC] with sp := 16 }).warnLog =
       { loadROM resetState [0x2A, 0xBC] with sp := 16 }.warnLog) :=
  ⟨(c2_stack_fault_amended 0 0x00EE _ (by decide)).1 rfl rfl,
   (c2_stack_fault_amended 0 0x2ABC _ (by decide)).2 (by decide) rfl⟩

/-! ### C3 — the 8XY4 carry identity -/

/-- C3, counterexample: the claim says that for `x = 0xF` the flag
semantics prevail (`V[x]` assigned first, then `VF`, so `VF` ends as the
carry) and the identity `V[x] + V[y] = 256 * VF + V[x]'` holds for every
`x`.  The source writes `VF` first and then overwrites it with the masked
sum: running `LD VF, 0x80; LD VE, 0x80; ADD VF, VE` ends with `VF = 0`,
not the carry `1`, and `0x80 + 0x80 ≠ 256 * 0 + 0`. -/
theorem c3_add_carry_counterexample :
    (executeInstruction 0 (executeInstruction 0
      (loadROM resetState [0x6F, 0x80, 0x6E, 0x80, 0x8F, 0xE4]))).v 15 =
        .num 0x80 ∧
    (executeInstruction 0 (executeInstruction 0
      (loadROM resetState [0x6F, 0x80, 0x6E, 0x80, 0x8F, 0xE4]))).v 14 =
        .num 0x80 ∧
    (executeInstruction 0 (executeInstruction 0 (executeInstruction 0
      (loadROM resetState [0x6F, 0x80, 0x6E, 0x80, 0x8F, 0xE4])))).v 15 =
        .num 0 ∧
    ¬ ((0x80 : Int) + 0x80 = 256 * 0 + 0) := by
  refine ⟨?_, ?_, ?_, ?_⟩ <;> decide

/-- C3 (corrected): for 8-bit operand registers, 8XY4 satisfies the
algebraic identity `V[x] + V[y] = 256 * VF' + V[x]'` whenever `x ≠ 0xF`
(any `y`, including `0xF`).  For `x = 0xF` the source assigns the carry to
`VF` first and then overwrites it with the masked sum, so `VF` ends as
`(V[0xF] + V[y]) & 0xFF`, not the carry. -/
theorem c3_add_carry_amended (rnd w : Int) (s : Chip8) (a b : Int)
    (hw : fetchOpcode s = w) (h1 : i32and w 0xF000 = 0x8000)
    (h2 : i32and w 0x000F = 4)
    (ha : s.v (i32shr (i32and w 0x0F00) 8) = .num a)
    (hb : s.v (i32shr (i32and w 0x00F0) 4) = .num b)
    (ha0 : 0 ≤ a) (ha1 : a ≤ 255) (hb0 : 0 ≤ b) (hb1 : b ≤ 255) :
    (i32shr (i32and w 0x0F00) 8 ≠ 15 →
      a + b = 256 * (if a + b > 255 then 1 else 0) + (a + b) % 256 ∧
      (executeInstruction rnd s).v 15 = .num (if a + b > 255 then 1 else 0) ∧
      (executeInstruction rnd s).v (i32shr (i32and w 0x0F00) 8) =
        .num ((a + b) % 256)) ∧
    (i32shr (i32and w 0x0F00) 8 = 15 →
      (executeInstruction rnd s).v 15 = .num ((a + b) % 256)) := by
  have hmask : jsAndV (.num (a + b)) (.num 255) = .num ((a + b) % 256) := by
    simp [jsAndV, coerceInt, i32and_255]
  constructor
  · intro hx
    refine ⟨by by_cases hc : a + b > 255 <;> simp [hc] <;> omega, ?_, ?_⟩
    · simp only [executeInstruction]
      rw [hw]
      simp only [execOp, h1, h2, ha, hb, hmask, upd, jsGt, jsAdd]
      rw [if_neg (by omega : ¬ (15 : Int) = i32shr (i32and w 0x0F00) 8)]
      simp only [if_true]
      by_cases hc : a + b > 255 <;> simp [hc]
    · simp only [executeInstruction]
      rw [hw]
      simp only [execOp, h1, h2, ha, hb, hmask, upd, jsGt, jsAdd]
      simp only [if_true]
  · intro hx
    rw [hx] at ha
    simp only [executeInstruction]
    rw [hw]
    simp only [execOp, h1, h2, ha, hb, hmask, upd, jsGt, jsAdd, hx]
    simp only [if_true]

/-- C3, witness: the amended identity applied to `ADD V1, V2` with
`V1 = 200`, `V2 = 100`. -/
theorem c3_add_carry_amended_witness :
    (executeInstruction 0 { loadROM resetState [0x81, 0x24] with
        v := upd (upd (loadROM resetState [0x81, 0x24]).v 1 (.num 200)) 2
          (.num 100) }).v 15 = .num 1 ∧
    (executeInstruction 0 { loadROM resetState [0x81, 0x24] with
        v := upd (upd (loadROM resetState [0x81, 0x24]).v 1 (.num 200)) 2
          (.num 100) }).v 1 = .num 44 := by
  obtain ⟨-, hvf, hvx⟩ :=
    (c3_add_carry_amended 0 0x8124
      { loadROM resetState [0x81, 0x24] with
        v := upd (upd (loadROM resetState [0x81, 0x24]).v 1 (.num 200)) 2
          (.num 100) }
      200 100 (by decide) (by decide)
      (by decide) (by decide) (by decide) (by norm_num) (by norm_num)
      (by norm_num) (by norm_num)).1 (by decide)
  refine ⟨?_, ?_⟩
  · rw [hvf]
    norm_num
  · have : i32shr (i32and 0x8124 0x0F00) 8 = (1 : Int) := by decide
    rw [this] at hvx
    rw [hvx]
    norm_num

/-! ### C4 — `waitingForKeyPress` and `executeInstruction` -/

/-- C4, counterexample: the claim says a call to `executeInstruction()`
with `waitingForKeyPress` set performs no fetch and leaves the state
unchanged.  The source checks the flag only in `emulateCycle`: after
`FX0A` sets the flag, a direct `executeInstruction()` call still fetches
and executes the next instruction (`LD V0, 0x0A` runs: `v[0]` becomes 10
and `pc` advances). -/
theorem c4_wait_counterexample :
    (executeInstruction 0
      (loadROM resetState [0xF0, 0x0A, 0x60, 0x0A])).waitingForKeyPress =
        true ∧
    (executeInstruction 0 (loadROM resetState [0xF0, 0x0A, 0x60, 0x0A])).v 0 =
      .num 0 ∧
    (executeInstruction 0 (executeInstruction 0
      (loadROM resetState [0xF0, 0x0A, 0x60, 0x0A]))).v 0 = .num 10 ∧
    (executeInstruction 0 (executeInstruction 0
      (loadROM resetState [0xF0, 0x0A, 0x60, 0x0A]))).pc = .num 0x204 := by
  refine ⟨?_, ?_, ?_, ?_⟩ <;> decide

/-- C4 (corrected): the wait-state guard lives in `emulateCycle`, not in
`executeInstruction`: when `waitingForKeyPress` is set (and the VM is not
paused) `emulateCycle` executes no instruction and changes nothing except
the timer decrement; `executeInstruction` itself never consults the
flag. -/
theorem c4_wait_amended (rnd : Nat → Int) (s : Chip8)
    (hp : s.paused = false) (hwk : s.waitingForKeyPress = true) :
    emulateCycle rnd s = decTimers s := by
  unfold emulateCycle
  simp only [hp, if_false, Bool.false_eq_true]
  rw [execBatchAux_waiting rnd 0 _ s hwk]

/-- C4, witness: the amended theorem applied to the reset state with the
wait flag set. -/
theorem c4_wait_amended_witness :
    emulateCycle (fun _ => 0) { resetState with waitingForKeyPress := true } =
      decTimers { resetState with waitingForKeyPress := true } :=
  c4_wait_amended (fun _ => 0) _ rfl rfl

/-! ### C5 — timer semantics of `emulateCycle` -/

/-- C5 (confirmed): `emulateCycle` is a no-op when paused; otherwise it is
the instruction batch followed by exactly one saturating decrement of each
timer (applied to the post-batch values, so independent of whether any
instruction executed), and while `waitingForKeyPress` is set it changes
nothing but the timers, which still tick. -/
theorem c5_timer_tick (rnd : Nat → Int) (s : Chip8) :
    (s.paused = true → emulateCycle rnd s = s) ∧
    (s.paused = false →
      emulateCycle rnd s = decTimers (execBatchAux rnd 0 s.speed.toNat s) ∧
      (∀ dv : Int, 0 ≤ dv →
        (execBatchAux rnd 0 s.speed.toNat s).delayTimer = .num dv →
        (emulateCycle rnd s).delayTimer = .num (max (dv - 1) 0)) ∧
      (∀ sv : Int, 0 ≤ sv →
        (execBatchAux rnd 0 s.speed.toNat s).soundTimer = .num sv →
        (emulateCycle rnd s).soundTimer = .num (max (sv - 1) 0)) ∧
      (s.waitingForKeyPress = true → emulateCycle rnd s = decTimers s)) := by
  constructor
  · intro hp
    unfold emulateCycle
    rw [if_pos hp]
  · intro hp
    have hmain : emulateCycle rnd s =
        decTimers (execBatchAux rnd 0 s.speed.toNat s) := by
      unfold emulateCycle
      simp only [hp, Bool.false_eq_true, if_false]
    refine ⟨hmain, ?_, ?_, ?_⟩
    · intro dv h0 hdv
      rw [hmain]
      unfold decTimers
      simp only [hdv, jsGt, jsSub]
      by_cases hpos : dv > 0
      · rw [if_pos (by simpa using hpos)]
        congr 1
        omega
      · rw [if_neg (by simpa using hpos)]
        congr 1
        omega
    · intro sv h0 hsv
      rw [hmain]
      unfold decTimers
      simp only [hsv, jsGt, jsSub]
      by_cases hpos : sv > 0
      · rw [if_pos (by simpa using hpos)]
        congr 1
        omega
      · rw [if_neg (by simpa using hpos)]
        congr 1
        omega
    · intro hwk
      rw [hmain, execBatchAux_waiting rnd 0 _ s hwk]

/-- C5, witness: the timer theorem applied to the reset state. -/
theorem c5_timer_tick_witness :
    emulateCycle (fun _ => 0) resetState =
      decTimers
        (execBatchAux (fun _ => 0) 0 resetState.speed.toNat resetState) :=
  ((c5_timer_tick (fun _ => 0) resetState).2 rfl).1

/-! ### C7 — FX29 font addressing -/

/-- C7, counterexample: the claim says FX29 sets `I = (V[x] & 0xF) * 5`.
The source computes `this.i = this.v[x] * 5` with no nibble mask: with
`V0 = 0x10`, `I` becomes 80, while `(0x10 & 0xF) * 5 = 0`. -/
theorem c7_fx29_counterexample :
    (executeInstruction 0 (executeInstruction 0
      (loadROM resetState [0x60, 0x10, 0xF0, 0x29]))).i = .num 80 ∧
    ¬ (80 : Int) = (i32and 0x10 0xF) * 5 := by
  constructor
  · decide
  · decide

/-- C7 (corrected): FX29 sets `I = V[x] * 5` — the low-nibble mask of the
claim is absent from the source.  (The two agree exactly when
`V[x] ≤ 0xF`.) -/
theorem c7_fx29_amended (rnd w b : Int) (s : Chip8)
    (hw : fetchOpcode s = w) (h1 : i32and w 0xF000 = 0xF000)
    (h2 : i32and w 0x00FF = 0x0029)
    (hb : s.v (i32shr (i32and w 0x0F00) 8) = .num b) :
    (executeInstruction rnd s).i = .num (b * 5) := by
  simp only [executeInstruction]
  rw [hw]
  simp only [execOp, h1, h2, hb, jsMul]

/-- C7, witness: `LD F, VA` with `VA = 7` yields `I = 35`. -/
theorem c7_fx29_amended_witness :
    (executeInstruction 0 { loadROM resetState [0xFA, 0x29] with
        v := upd (loadROM resetState [0xFA, 0x29]).v 10 (.num 7) }).i =
      .num (7 * 5) :=
  c7_fx29_amended 0 0xFA29 7 _ (by decide) (by decide) (by decide) (by decide)

/-! ### C8 — `loadROM` size handling -/

/-- C8, counterexample: the claim says a ROM longer than 3584 bytes is
rejected with no partial load.  The source has no size check: loading a
3585-byte ROM of the byte 7 writes `memory[4096]` (beyond `0xFFF`), which
changes it from `undefined` to 7. -/
theorem c8_loadROM_counterexample :
    (loadROM resetState (List.replicate 3585 (7 : Int))).memory 4096 =
      .num 7 ∧
    resetState.memory 4096 = .undefined := by
  constructor
  · simp only [loadROM]
    rw [writeROM_get]
    rw [List.length_replicate]
    rw [if_pos (by norm_num)]
    have h1 : ((4096 : Int) - 512).toNat = 3584 := by decide
    rw [h1]
    rw [List.getD_eq_getElem?_getD, List.getElem?_replicate_of_lt (by norm_num)]
    rfl
  · rfl

/-- C8 (corrected): `loadROM` never rejects: every byte of the buffer is
written verbatim starting at `0x200` (oversized buffers spill past
`0xFFF`), and addresses outside the written range keep their prior value;
in particular a buffer of at most 3584 bytes touches no address outside
`0x200..0xFFF`. -/
theorem c8_loadROM_amended (s : Chip8) (rom : List Int) (a : Int) :
    ((loadROM s rom).memory a =
      if 0x200 ≤ a ∧ a < 0x200 + rom.length then
        .num (rom.getD (a - 0x200).toNat 0)
      else s.memory a) ∧
    (rom.length ≤ 3584 → a < 0x200 ∨ 0xFFF < a →
      (loadROM s rom).memory a = s.memory a) := by
  have hmain : (loadROM s rom).memory a =
      if 0x200 ≤ a ∧ a < 0x200 + rom.length then
        .num (rom.getD (a - 0x200).toNat 0)
      else s.memory a := by
    simp only [loadROM]
    exact writeROM_get rom s.memory 0x200 a
  refine ⟨hmain, ?_⟩
  intro hlen hout
  rw [hmain, if_neg (by omega)]

/-- C8, witness: a three-byte ROM leaves address `0x100` untouched. -/
theorem c8_loadROM_amended_witness :
    (loadROM resetState [1, 2, 3]).memory 0x100 = resetState.memory 0x100 :=
  (c8_loadROM_amended resetState [1, 2, 3] 0x100).2 (by norm_num)
    (Or.inl (by norm_num))

/-! ### C10 — DXYN with a zero-height sprite -/

/-- C10 (confirmed): executing DXYN with `n = 0` draws nothing — the
framebuffer is unchanged — yet still sets `drawFlag` and overwrites `VF`
with 0; apart from the usual `pc` advance and `lastInstruction` update,
nothing else changes. -/
theorem c10_dxyn_zero_height (rnd w : Int) (s : Chip8)
    (hw : fetchOpcode s = w)
    (h1 : i32and w 0xF000 = 0xD000) (h2 : i32and w 0x000F = 0) :
    executeInstruction rnd s =
      { s with pc := jsAdd s.pc (.num 2), lastInstruction := some w,
               v := upd s.v 15 (.num 0), drawFlag := true } := by
  simp only [executeInstruction]
  rw [hw]
  simp [execOp, h1, h2, drawSprite]

/-- C10, witness: the zero-height draw theorem applied to `DRW V5, V3, 0`
from reset. -/
theorem c10_dxyn_zero_height_witness :
    executeInstruction 0 (loadROM resetState [0xD5, 0x30]) =
      { loadROM resetState [0xD5, 0x30] with
        pc := jsAdd (loadROM resetState [0xD5, 0x30]).pc (.num 2),
        lastInstruction := some 0xD530,
        v := upd (loadROM resetState [0xD5, 0x30]).v 15 (.num 0),
        drawFlag := true } :=
  c10_dxyn_zero_height 0 0xD530 _ (by decide) (by decide) (by decide)

/-! ### C6 — the DXYN double-draw property -/

theorem pxAt_inj (xC : Int) (hx : 0 ≤ xC) {c1 c2 : Nat} (h1 : c1 < 8)
    (h2 : c2 < 8) (he : pxAt xC c1 = pxAt xC c2) : c1 = c2 := by
  unfold pxAt jsRem at he
  rw [if_neg (by omega), if_neg (by omega)] at he
  omega

theorem pyAt_inj (yC : Int) (hy : 0 ≤ yC) {r1 r2 : Nat} (h1 : r1 < 32)
    (h2 : r2 < 32) (he : pyAt yC r1 = pyAt yC r2) : r1 = r2 := by
  unfold pyAt jsRem at he
  rw [if_neg (by omega), if_neg (by omega)] at he
  omega

theorem colHit_succ (mem : Int → JsVal) (iv : JsVal) (xC yC : Int)
    (row k : Nat) (py px : Int) :
    colHit mem iv xC yC row (k + 1) py px ↔
      colHit mem iv xC yC row k py px ∨
        (sprBit mem iv row k = true ∧ py = pyAt yC row ∧ px = pxAt xC k) := by
  constructor
  · rintro ⟨col, hlt, hb, hpy, hpx⟩
    by_cases hc : col = k
    · subst hc
      exact Or.inr ⟨hb, hpy, hpx⟩
    · exact Or.inl ⟨col, by omega, hb, hpy, hpx⟩
  · rintro (⟨col, hlt, hb, hpy, hpx⟩ | ⟨hb, hpy, hpx⟩)
    · exact ⟨col, by omega, hb, hpy, hpx⟩
    · exact ⟨k, by omega, hb, hpy, hpx⟩

theorem colCollide_succ (mem : Int → JsVal) (iv : JsVal) (xC yC : Int)
    (row k : Nat) (e : Int → Int → Int) :
    colCollide mem iv xC yC row (k + 1) e ↔
      colCollide mem iv xC yC row k e ∨
        (sprBit mem iv row k = true ∧ e (pyAt yC row) (pxAt xC k) = 1) := by
  constructor
  · rintro ⟨col, hlt, hb, hE⟩
    by_cases hc : col = k
    · subst hc
      exact Or.inr ⟨hb, hE⟩
    · exact Or.inl ⟨col, by omega, hb, hE⟩
  · rintro (⟨col, hlt, hb, hE⟩ | ⟨hb, hE⟩)
    · exact ⟨col, by omega, hb, hE⟩
    · exact ⟨k, by omega, hb, hE⟩

theorem colHit_last (mem : Int → JsVal) (iv : JsVal) (xC yC : Int)
    (row k : Nat) (hbit : sprBit mem iv row k = true) :
    colHit mem iv xC yC row (k + 1) (pyAt yC row) (pxAt xC k) :=
  ⟨k, by omega, hbit, rfl, rfl⟩

theorem colHit_zero (mem : Int → JsVal) (iv : JsVal) (xC yC : Int)
    (row : Nat) (py px : Int) : ¬ colHit mem iv xC yC row 0 py px := by
  rintro ⟨col, hcol, -⟩
  omega

theorem colCollide_zero (mem : Int → JsVal) (iv : JsVal) (xC yC : Int)
    (row : Nat) (e : Int → Int → Int) : ¬ colCollide mem iv xC yC row 0 e := by
  rintro ⟨col, hcol, -⟩
  omega

theorem colsFold_char (mem : Int → JsVal) (iv : JsVal) (xC yC : Int)
    (hx : 0 ≤ xC) (row : Nat) (k : Nat) (hk : k ≤ 8)
    (e : Int → Int → Int) (f : Int) :
    (List.range k).foldl (drawPixel mem iv xC yC row) (e, f) =
      (fun py px => if colHit mem iv xC yC row k py px
         then i32xor (e py px) 1 else e py px,
       if colCollide mem iv xC yC row k e then 1 else f) := by
  induction k with
  | zero =>
    simp only [List.range_zero, List.foldl_nil]
    rw [Prod.mk.injEq]
    refine ⟨?_, ?_⟩
    · funext py px
      rw [if_neg (colHit_zero mem iv xC yC row py px)]
    · rw [if_neg (colCollide_zero mem iv xC yC row e)]
  | succ k ih =>
    rw [List.range_succ, List.foldl_append, List.foldl_cons, List.foldl_nil]
    rw [ih (by omega)]
    by_cases hbit : sprBit mem iv row k = true
    · have hnk : ¬ colHit mem iv xC yC row k (pyAt yC row) (pxAt xC k) := by
        rintro ⟨col, hcol, hbc, hpy, hpx⟩
        have : col = k := pxAt_inj xC hx (by omega) (by omega) hpx.symm
        omega
      simp only [drawPixel, hbit, if_true, hnk, if_false]
      rw [Prod.mk.injEq]
      refine ⟨?_, ?_⟩
      · funext py px
        unfold upd2
        by_cases hpp : py = pyAt yC row ∧ px = pxAt xC k
        · rw [if_pos hpp]
          obtain ⟨h1, h2⟩ := hpp
          subst h1
          subst h2
          rw [if_pos (colHit_last mem iv xC yC row k hbit)]
        · rw [if_neg hpp]
          beta_reduce
          by_cases hck : colHit mem iv xC yC row k py px
          · rw [if_pos hck,
              if_pos ((colHit_succ mem iv xC yC row k py px).mpr (Or.inl hck))]
          · rw [if_neg hck, if_neg]
            intro hc1
            rcases (colHit_succ mem iv xC yC row k py px).mp hc1 with h | ⟨-, hpy, hpx⟩
            · exact hck h
            · exact hpp ⟨hpy, hpx⟩
      · by_cases hE : e (pyAt yC row) (pxAt xC k) = 1
        · rw [if_pos hE,
            if_pos ((colCollide_succ mem iv xC yC row k e).mpr (Or.inr ⟨hbit, hE⟩))]
        · rw [if_neg hE]
          by_cases hcc : colCollide mem iv xC yC row k e
          · rw [if_pos hcc,
              if_pos ((colCollide_succ mem iv xC yC row k e).mpr (Or.inl hcc))]
          · rw [if_neg hcc, if_neg]
            intro hc1
            rcases (colCollide_succ mem iv xC yC row k e).mp hc1 with h | ⟨-, hE2⟩
            · exact hcc h
            · exact hE hE2
    · simp only [drawPixel, hbit, if_false, Bool.false_eq_true]
      rw [Prod.mk.injEq]
      refine ⟨?_, ?_⟩
      · funext py px
        beta_reduce
        by_cases hck : colHit mem iv xC yC row k py px
        · rw [if_pos hck,
            if_pos ((colHit_succ mem iv xC yC row k py px).mpr (Or.inl hck))]
        · rw [if_neg hck, if_neg]
          intro hc1
          rcases (colHit_succ mem iv xC yC row k py px).mp hc1 with h | ⟨hb, -⟩
          · exact hck h
          · exact hbit hb
      · by_cases hcc : colCollide mem iv xC yC row k e
        · rw [if_pos hcc,
            if_pos ((colCollide_succ mem iv xC yC row k e).mpr (Or.inl hcc))]
        · rw [if_neg hcc, if_neg]
          intro hc1
          rcases (colCollide_succ mem iv xC yC row k e).mp hc1 with h | ⟨hb, -⟩
          · exact hcc h
          · exact hbit hb




theorem sprHit_succ (mem : Int → JsVal) (iv : JsVal) (xC yC : Int)
    (m : Nat) (py px : Int) :
    sprHit mem iv xC yC (m + 1) py px ↔
      sprHit mem iv xC yC m py px ∨ colHit mem iv xC yC m 8 py px := by
  constructor
  · rintro ⟨row, hlt, hc⟩
    by_cases hr : row = m
    · subst hr
      exact Or.inr hc
    · exact Or.inl ⟨row, by omega, hc⟩
  · rintro (⟨row, hlt, hc⟩ | hc)
    · exact ⟨row, by omega, hc⟩
    · exact ⟨m, by omega, hc⟩

theorem sprCollide_succ (mem : Int → JsVal) (iv : JsVal) (xC yC : Int)
    (m : Nat) (d : Int → Int → Int) :
    sprCollide mem iv xC yC (m + 1) d ↔
      sprCollide mem iv xC yC m d ∨ colCollide mem iv xC yC m 8 d := by
  constructor
  · rintro ⟨row, hlt, hc⟩
    by_cases hr : row = m
    · subst hr
      exact Or.inr hc
    · exact Or.inl ⟨row, by omega, hc⟩
  · rintro (⟨row, hlt, hc⟩ | hc)
    · exact ⟨row, by omega, hc⟩
    · exact ⟨m, by omega, hc⟩

theorem sprHit_zero (mem : Int → JsVal) (iv : JsVal) (xC yC : Int)
    (py px : Int) : ¬ sprHit mem iv xC yC 0 py px := by
  rintro ⟨row, hlt, -⟩
  omega

theorem sprCollide_zero (mem : Int → JsVal) (iv : JsVal) (xC yC : Int)
    (d : Int → Int → Int) : ¬ sprCollide mem iv xC yC 0 d := by
  rintro ⟨row, hlt, -⟩
  omega

theorem colCollide_congr (mem : Int → JsVal) (iv : JsVal) (xC yC : Int)
    (row k : Nat) (e1 e2 : Int → Int → Int)
    (h : ∀ px', e1 (pyAt yC row) px' = e2 (pyAt yC row) px') :
    colCollide mem iv xC yC row k e1 ↔ colCollide mem iv xC yC row k e2 := by
  unfold colCollide
  constructor
  · rintro ⟨col, h1, h2, h3⟩
    exact ⟨col, h1, h2, by rw [← h]; exact h3⟩
  · rintro ⟨col, h1, h2, h3⟩
    exact ⟨col, h1, h2, by rw [h]; exact h3⟩

theorem drawSprite_char (mem : Int → JsVal) (iv : JsVal) (xC yC : Int)
    (hx : 0 ≤ xC) (hy : 0 ≤ yC) (m : Nat) (hm : m ≤ 32)
    (d : Int → Int → Int) :
    drawSprite mem iv xC yC m d =
      (fun py px => if sprHit mem iv xC yC m py px then i32xor (d py px) 1
         else d py px,
       if sprCollide mem iv xC yC m d then 1 else 0) := by
  induction m with
  | zero =>
    unfold drawSprite
    simp only [List.range_zero, List.foldl_nil]
    rw [Prod.mk.injEq]
    refine ⟨?_, ?_⟩
    · funext py px
      rw [if_neg (sprHit_zero mem iv xC yC py px)]
    · rw [if_neg (sprCollide_zero mem iv xC yC d)]
  | succ m ih =>
    have hrow : ∀ px', ¬ sprHit mem iv xC yC m (pyAt yC m) px' := by
      rintro px' ⟨row1, hr1, ⟨col, hcol, hb, hpy, hpx⟩⟩
      have : m = row1 := pyAt_inj yC hy (by omega) (by omega) hpy
      omega
    unfold drawSprite at ih ⊢
    rw [List.range_succ, List.foldl_append, List.foldl_cons, List.foldl_nil]
    rw [ih (by omega)]
    unfold drawRow
    rw [colsFold_char mem iv xC yC hx m 8 le_rfl]
    have hCC : colCollide mem iv xC yC m 8
        (fun py px => if sprHit mem iv xC yC m py px then i32xor (d py px) 1
          else d py px) ↔ colCollide mem iv xC yC m 8 d :=
      colCollide_congr mem iv xC yC m 8 _ d
        (fun px' => by rw [if_neg (hrow px')])
    rw [Prod.mk.injEq]
    refine ⟨?_, ?_⟩
    · funext py px
      by_cases hch : colHit mem iv xC yC m 8 py px
      · rw [if_pos hch]
        obtain ⟨col, hcol, hb, hpy, hpx⟩ := hch
        subst hpy
        rw [if_neg (hrow px)]
        rw [if_pos ((sprHit_succ mem iv xC yC m (pyAt yC m) px).mpr
          (Or.inr ⟨col, hcol, hb, rfl, hpx⟩))]
      · rw [if_neg hch]
        by_cases hsm : sprHit mem iv xC yC m py px
        · rw [if_pos hsm,
            if_pos ((sprHit_succ mem iv xC yC m py px).mpr (Or.inl hsm))]
        · rw [if_neg hsm, if_neg]
          intro hc1
          rcases (sprHit_succ mem iv xC yC m py px).mp hc1 with h | h
          · exact hsm h
          · exact hch h
    · by_cases hc2 : colCollide mem iv xC yC m 8 d
      · rw [if_pos (hCC.mpr hc2),
          if_pos ((sprCollide_succ mem iv xC yC m d).mpr (Or.inr hc2))]
      · rw [if_neg (fun h => hc2 (hCC.mp h))]
        by_cases hsc : sprCollide mem iv xC yC m d
        · rw [if_pos hsc,
            if_pos ((sprCollide_succ mem iv xC yC m d).mpr (Or.inl hsc))]
        · rw [if_neg hsc, if_neg]
          intro hc1
          rcases (sprCollide_succ mem iv xC yC m d).mp hc1 with h | h
          · exact hsc h
          · exact hc2 h




theorem exec_dxyn (rnd w : Int) (s : Chip8) (hw : fetchOpcode s = w)
    (h1 : i32and w 0xF000 = 0xD000) :
    executeInstruction rnd s =
      { s with
        pc := jsAdd s.pc (.num 2), lastInstruction := some w,
        display := (drawSprite s.memory s.i
          (i32and (coerceInt (s.v (i32shr (i32and w 0x0F00) 8))) 0xFF)
          (i32and (coerceInt (s.v (i32shr (i32and w 0x00F0) 4))) 0xFF)
          (i32and w 0x000F).toNat s.display).1,
        v := upd s.v 15 (.num ((drawSprite s.memory s.i
          (i32and (coerceInt (s.v (i32shr (i32and w 0x0F00) 8))) 0xFF)
          (i32and (coerceInt (s.v (i32shr (i32and w 0x00F0) 4))) 0xFF)
          (i32and w 0x000F).toNat s.display).2)),
        drawFlag := true } := by
  simp only [executeInstruction]
  rw [hw]
  simp only [execOp, h1, jsAndV]




theorem sprHit_of (mem : Int → JsVal) (iv : JsVal) (xC yC : Int)
    (m row col : Nat) (hr : row < m) (hc : col < 8)
    (hb : sprBit mem iv row col = true) :
    sprHit mem iv xC yC m (pyAt yC row) (pxAt xC col) :=
  ⟨row, hr, col, hc, hb, rfl, rfl⟩

/-- C6 (corrected): starting from an all-zero framebuffer, executing the
same DXYN opcode twice with unchanged `V[x]`, `V[y]` (the index register,
memory and sprite bytes are untouched by DXYN) leaves the framebuffer all
zero again — the XOR draw is an involution.  But `VF = 1` after the second
call only when the sprite actually draws a pixel: when some row below `n`
has a set bit.  For a sprite that draws nothing (for example `n = 0`, or
all-zero sprite bytes) `VF` ends `0`. -/
theorem c6_double_draw (rnd1 rnd2 w : Int) (s : Chip8)
    (hd : s.display = fun _ _ => 0)
    (hw : fetchOpcode s = w) (h1 : i32and w 0xF000 = 0xD000)
    (hw2 : fetchOpcode (executeInstruction rnd1 s) = w)
    (hvx : (executeInstruction rnd1 s).v (i32shr (i32and w 0x0F00) 8) =
      s.v (i32shr (i32and w 0x0F00) 8))
    (hvy : (executeInstruction rnd1 s).v (i32shr (i32and w 0x00F0) 4) =
      s.v (i32shr (i32and w 0x00F0) 4)) :
    (executeInstruction rnd2 (executeInstruction rnd1 s)).display =
      (fun _ _ => 0) ∧
    ((∃ row, row < (i32and w 0x000F).toNat ∧ ∃ col, col < 8 ∧
        sprBit s.memory s.i row col = true) →
      (executeInstruction rnd2 (executeInstruction rnd1 s)).v 15 = .num 1) ∧
    (¬ (∃ row, row < (i32and w 0x000F).toNat ∧ ∃ col, col < 8 ∧
        sprBit s.memory s.i row col = true) →
      (executeInstruction rnd2 (executeInstruction rnd1 s)).v 15 = .num 0) := by
  have hx01 : i32xor 0 1 = 1 := by decide
  have hx11 : i32xor 1 1 = 0 := by decide
  set x := i32shr (i32and w 0x0F00) 8 with hxdef
  set y := i32shr (i32and w 0x00F0) 4 with hydef
  set n := (i32and w 0x000F).toNat with hndef
  set xC := i32and (coerceInt (s.v x)) 0xFF with hxc
  set yC := i32and (coerceInt (s.v y)) 0xFF with hyc
  have hx0 : 0 ≤ xC := by
    rw [hxc, i32and_255]
    exact Int.emod_nonneg _ (by norm_num)
  have hy0 : 0 ≤ yC := by
    rw [hyc, i32and_255]
    exact Int.emod_nonneg _ (by norm_num)
  have hn32 : n ≤ 32 := by
    have h15 := (decodeN_bounds w).2
    rw [hndef]
    omega
  have hncol : ¬ sprCollide s.memory s.i xC yC n (fun _ _ => 0) := by
    rintro ⟨row, h1r, col, h2c, h3b, h4⟩
    simp at h4
  have hs1 := exec_dxyn rnd1 w s hw h1
  rw [hd] at hs1
  rw [drawSprite_char s.memory s.i xC yC hx0 hy0 n hn32 _] at hs1
  simp only [hncol, if_false, hx01] at hs1
  have hm1 : (executeInstruction rnd1 s).memory = s.memory := by rw [hs1]
  have hi1 : (executeInstruction rnd1 s).i = s.i := by rw [hs1]
  have hd1 : (executeInstruction rnd1 s).display =
      fun py px => if sprHit s.memory s.i xC yC n py px then (1 : Int)
        else 0 := by
    rw [hs1]
  have hs2 := exec_dxyn rnd2 w (executeInstruction rnd1 s) hw2 h1
  rw [hvx, hvy, hm1, hi1, hd1] at hs2
  rw [drawSprite_char s.memory s.i xC yC hx0 hy0 n hn32 _] at hs2
  have hcoll : sprCollide s.memory s.i xC yC n
      (fun py px => if sprHit s.memory s.i xC yC n py px then (1 : Int)
        else 0) ↔
      (∃ row, row < n ∧ ∃ col, col < 8 ∧ sprBit s.memory s.i row col = true) := by
    constructor
    · rintro ⟨row, hr, col, hc, hb, -⟩
      exact ⟨row, hr, col, hc, hb⟩
    · rintro ⟨row, hr, col, hc, hb⟩
      refine ⟨row, hr, col, hc, hb, ?_⟩
      beta_reduce
      rw [if_pos (sprHit_of s.memory s.i xC yC n row col hr hc hb)]
  refine ⟨?_, ?_, ?_⟩
  · rw [hs2]
    funext py px
    simp only []
    by_cases hhit : sprHit s.memory s.i xC yC n py px
    · rw [if_pos hhit, if_pos hhit, hx11]
    · rw [if_neg hhit, if_neg hhit]
  · intro hex
    rw [hs2]
    simp only [upd, if_pos rfl]
    rw [if_pos (hcoll.mpr hex)]
    rw [if_pos trivial]
  · intro hnex
    rw [hs2]
    simp only [upd, if_pos rfl]
    rw [if_neg (fun h => hnex (hcoll.mp h))]
    rw [if_pos trivial]

/-- C6, counterexample: the claim asserts `VF == 1` after the second call
for every sprite, "any n".  With `n = 0` (a sprite that draws nothing) the
hypotheses of the claim hold — all-zero framebuffer, the same DXYN opcode
fetched twice, `V[x]`, `V[y]`, `I` and memory unchanged — yet `VF = 0`
after the second call. -/
theorem c6_empty_sprite_counterexample :
    (loadROM resetState [0xD0, 0x00, 0xD0, 0x00]).display = (fun _ _ => 0) ∧
    fetchOpcode (loadROM resetState [0xD0, 0x00, 0xD0, 0x00]) = 0xD000 ∧
    fetchOpcode (executeInstruction 0
      (loadROM resetState [0xD0, 0x00, 0xD0, 0x00])) = 0xD000 ∧
    (executeInstruction 0 (loadROM resetState [0xD0, 0x00, 0xD0, 0x00])).v 0 =
      (loadROM resetState [0xD0, 0x00, 0xD0, 0x00]).v 0 ∧
    (executeInstruction 0 (loadROM resetState [0xD0, 0x00, 0xD0, 0x00])).i =
      (loadROM resetState [0xD0, 0x00, 0xD0, 0x00]).i ∧
    (executeInstruction 0
      (loadROM resetState [0xD0, 0x00, 0xD0, 0x00])).memory =
      (loadROM resetState [0xD0, 0x00, 0xD0, 0x00]).memory ∧
    (executeInstruction 0 (executeInstruction 0
      (loadROM resetState [0xD0, 0x00, 0xD0, 0x00]))).v 15 = .num 0 ∧
    JsVal.num 0 ≠ JsVal.num 1 := by
  refine ⟨rfl, ?_, ?_, ?_, ?_, rfl, ?_, ?_⟩ <;> decide

/-- C6, witness: the double-draw theorem applied to `DRW V0, V1, 5` twice
from reset — the sprite is the font glyph `0` at `I = 0`, which has set
bits, so the framebuffer returns to all-zero and `VF = 1`. -/
theorem c6_double_draw_witness :
    (executeInstruction 0 (executeInstruction 0
      (loadROM resetState [0xD0, 0x15, 0xD0, 0x15]))).display =
      (fun _ _ => 0) ∧
    (executeInstruction 0 (executeInstruction 0
      (loadROM resetState [0xD0, 0x15, 0xD0, 0x15]))).v 15 = .num 1 :=
  ⟨(c6_double_draw 0 0 0xD015 (loadROM resetState [0xD0, 0x15, 0xD0, 0x15])
      rfl (by decide) (by decide) (by decide) (by decide) (by decide)).1,
   (c6_double_draw 0 0 0xD015 (loadROM resetState [0xD0, 0x15, 0xD0, 0x15])
      rfl (by decide) (by decide) (by decide) (by decide) (by decide)).2.1
     ⟨0, by decide, 0, by decide, by decide⟩⟩

/-! ### C9 — disassembler vs executor opcode tables -/

theorem exists_head_append (a b : String) (c : Char)
    (h : ∃ l, a.data = c :: l) : ∃ l, (a ++ b).data = c :: l := by
  obtain ⟨l, hl⟩ := h
  exact ⟨l ++ b.data, by rw [String.data_append, hl, List.cons_append]⟩

theorem ne_of_head (s t : String) (c1 c2 : Char)
    (h1 : ∃ l, s.data = c1 :: l) (h2 : ∃ l, t.data = c2 :: l)
    (h : c1 ≠ c2) : s ≠ t := by
  intro he
  obtain ⟨l1, hl1⟩ := h1
  obtain ⟨l2, hl2⟩ := h2
  rw [he, hl2] at hl1
  exact h (by injection hl1 with ha hb; exact ha.symm)

theorem unknown_head (op : Int) : ∃ l, (unknownStr op).data = 'U' :: l :=
  exists_head_append _ _ _ (exists_head_append _ _ _ ⟨_, rfl⟩)

/-- C9 (corrected): outside the 0x0NNN family the disassembler and the
executor agree exactly: `disassembleInstruction` returns `UNKNOWN (<hex>)`
precisely for the opcodes on which the executor logs its unknown-opcode
diagnostic.  For opcodes with high nibble 0, the executor warns on
everything except 00E0 and 00EE, while the disassembler never returns
`UNKNOWN` there (it renders them as `SYS nnn`). -/
theorem c9_amended (op : Int) (h0 : 0 ≤ op) (h1 : op < 65536) :
    (i32and op 0xF000 ≠ 0 →
      ((disassembleInstruction op = unknownStr op) ↔ execWarns op = true)) ∧
    (i32and op 0xF000 = 0 →
      disassembleInstruction op ≠ unknownStr op ∧
      (execWarns op = false ↔ (op = 0x00E0 ∨ op = 0x00EE))) := by
  have hreset : resetState.warnLog = [] := rfl
  constructor
  · intro hne
    simp only [disassembleInstruction]
    split
    · next heq => exact absurd heq hne
    · next heq =>
      refine iff_of_false (ne_of_head _ _ 'J' 'U'
          (exists_head_append _ _ _ ⟨_, rfl⟩) (unknown_head _) (by decide)) ?_
      simp [execWarns, execOp, heq, hreset, apply_ite Chip8.warnLog]
    · next heq =>
      refine iff_of_false (ne_of_head _ _ 'C' 'U'
          (exists_head_append _ _ _ ⟨_, rfl⟩) (unknown_head _) (by decide)) ?_
      simp [execWarns, execOp, heq, hreset, apply_ite Chip8.warnLog]
    · next heq =>
      refine iff_of_false (ne_of_head _ _ 'S' 'U'
          (exists_head_append _ _ _ (exists_head_append _ _ _ (exists_head_append _ _ _ ⟨_, rfl⟩))) (unknown_head _) (by decide)) ?_
      simp [execWarns, execOp, heq, hreset, apply_ite Chip8.warnLog]
    · next heq =>
      refine iff_of_false (ne_of_head _ _ 'S' 'U'
          (exists_head_append _ _ _ (exists_head_append _ _ _ (exists_head_append _ _ _ ⟨_, rfl⟩))) (unknown_head _) (by decide)) ?_
      simp [execWarns, execOp, heq, hreset, apply_ite Chip8.warnLog]
    · next heq =>
      refine iff_of_false (ne_of_head _ _ 'S' 'U'
          (exists_head_append _ _ _ (exists_head_append _ _ _ (exists_head_append _ _ _ ⟨_, rfl⟩))) (unknown_head _) (by decide)) ?_
      simp [execWarns, execOp, heq, hreset, apply_ite Chip8.warnLog]
    · next heq =>
      refine iff_of_false (ne_of_head _ _ 'L' 'U'
          (exists_head_append _ _ _ (exists_head_append _ _ _ (exists_head_append _ _ _ ⟨_, rfl⟩))) (unknown_head _) (by decide)) ?_
      simp [execWarns, execOp, heq, hreset, apply_ite Chip8.warnLog]
    · next heq =>
      refine iff_of_false (ne_of_head _ _ 'A' 'U'
          (exists_head_append _ _ _ (exists_head_append _ _ _ (exists_head_append _ _ _ ⟨_, rfl⟩))) (unknown_head _) (by decide)) ?_
      simp [execWarns, execOp, heq, hreset, apply_ite Chip8.warnLog]
    · next heq =>
      split
      · next heq2 =>
        refine iff_of_false (ne_of_head _ _ 'L' 'U'
          (exists_head_append _ _ _ (exists_head_append _ _ _ (exists_head_append _ _ _ ⟨_, rfl⟩))) (unknown_head _) (by decide)) ?_
        simp [execWarns, execOp, heq, heq2, hreset, apply_ite Chip8.warnLog]
      · next heq2 =>
        refine iff_of_false (ne_of_head _ _ 'O' 'U'
          (exists_head_append _ _ _ (exists_head_append _ _ _ (exists_head_append _ _ _ ⟨_, rfl⟩))) (unknown_head _) (by decide)) ?_
        simp [execWarns, execOp, heq, heq2, hreset, apply_ite Chip8.warnLog]
      · next heq2 =>
        refine iff_of_false (ne_of_head _ _ 'A' 'U'
          (exists_head_append _ _ _ (exists_head_append _ _ _ (exists_head_append _ _ _ ⟨_, rfl⟩))) (unknown_head _) (by decide)) ?_
        simp [execWarns, execOp, heq, heq2, hreset, apply_ite Chip8.warnLog]
      · next heq2 =>
        refine iff_of_false (ne_of_head _ _ 'X' 'U'
          (exists_head_append _ _ _ (exists_head_append _ _ _ (exists_head_append _ _ _ ⟨_, rfl⟩))) (unknown_head _) (by decide)) ?_
        simp [execWarns, execOp, heq, heq2, hreset, apply_ite Chip8.warnLog]
      · next heq2 =>
        refine iff_of_false (ne_of_head _ _ 'A' 'U'
          (exists_head_append _ _ _ (exists_head_append _ _ _ (exists_head_append _ _ _ ⟨_, rfl⟩))) (unknown_head _) (by decide)) ?_
        simp [execWarns, execOp, heq, heq2, hreset, apply_ite Chip8.warnLog]
      · next heq2 =>
        refine iff_of_false (ne_of_head _ _ 'S' 'U'
          (exists_head_append _ _ _ (exists_head_append _ _ _ (exists_head_append _ _ _ ⟨_, rfl⟩))) (unknown_head _) (by decide)) ?_
        simp [execWarns, execOp, heq, heq2, hreset, apply_ite Chip8.warnLog]
      · next heq2 =>
        refine iff_of_false (ne_of_head _ _ 'S' 'U'
          (exists_head_append _ _ _ ⟨_, rfl⟩) (unknown_head _) (by decide)) ?_
        simp [execWarns, execOp, heq, heq2, hreset, apply_ite Chip8.warnLog]
      · next heq2 =>
        refine iff_of_false (ne_of_head _ _ 'S' 'U'
          (exists_head_append _ _ _ (exists_head_append _ _ _ (exists_head_append _ _ _ ⟨_, rfl⟩))) (unknown_head _) (by decide)) ?_
        simp [execWarns, execOp, heq, heq2, hreset, apply_ite Chip8.warnLog]
      · next heq2 =>
        refine iff_of_false (ne_of_head _ _ 'S' 'U'
          (exists_head_append _ _ _ ⟨_, rfl⟩) (unknown_head _) (by decide)) ?_
        simp [execWarns, execOp, heq, heq2, hreset, apply_ite Chip8.warnLog]
      · refine iff_of_true rfl ?_
        simp [execWarns, execOp, heq, hreset]
    · next heq =>
      refine iff_of_false (ne_of_head _ _ 'S' 'U'
          (exists_head_append _ _ _ (exists_head_append _ _ _ (exists_head_append _ _ _ ⟨_, rfl⟩))) (unknown_head _) (by decide)) ?_
      simp [execWarns, execOp, heq, hreset, apply_ite Chip8.warnLog]
    · next heq =>
      refine iff_of_false (ne_of_head _ _ 'L' 'U'
          (exists_head_append _ _ _ ⟨_, rfl⟩) (unknown_head _) (by decide)) ?_
      simp [execWarns, execOp, heq, hreset, apply_ite Chip8.warnLog]
    · next heq =>
      refine iff_of_false (ne_of_head _ _ 'J' 'U'
          (exists_head_append _ _ _ ⟨_, rfl⟩) (unknown_head _) (by decide)) ?_
      simp [execWarns, execOp, heq, hreset, apply_ite Chip8.warnLog]
    · next heq =>
      refine iff_of_false (ne_of_head _ _ 'R' 'U'
          (exists_head_append _ _ _ (exists_head_append _ _ _ (exists_head_append _ _ _ ⟨_, rfl⟩))) (unknown_head _) (by decide)) ?_
      simp [execWarns, execOp, heq, hreset, apply_ite Chip8.warnLog]
    · next heq =>
      refine iff_of_false (ne_of_head _ _ 'D' 'U'
          (exists_head_append _ _ _ (exists_head_append _ _ _ (exists_head_append _ _ _ (exists_head_append _ _ _ (exists_head_append _ _ _ ⟨_, rfl⟩))))) (unknown_head _) (by decide)) ?_
      simp [execWarns, execOp, heq, hreset, apply_ite Chip8.warnLog]
    · next heq =>
      split
      · next heq2 =>
        refine iff_of_false (ne_of_head _ _ 'S' 'U'
          (exists_head_append _ _ _ ⟨_, rfl⟩) (unknown_head _) (by decide)) ?_
        simp [execWarns, execOp, heq, heq2, hreset, apply_ite Chip8.warnLog]
      · next heq2 =>
        refine iff_of_false (ne_of_head _ _ 'S' 'U'
          (exists_head_append _ _ _ ⟨_, rfl⟩) (unknown_head _) (by decide)) ?_
        simp [execWarns, execOp, heq, heq2, hreset, apply_ite Chip8.warnLog]
      · refine iff_of_true rfl ?_
        simp [execWarns, execOp, heq, hreset]
    · next heq =>
      split
      · next heq2 =>
        refine iff_of_false (ne_of_head _ _ 'L' 'U'
          (exists_head_append _ _ _ (exists_head_append _ _ _ ⟨_, rfl⟩)) (unknown_head _) (by decide)) ?_
        simp [execWarns, execOp, heq, heq2, hreset, apply_ite Chip8.warnLog]
      · next heq2 =>
        refine iff_of_false (ne_of_head _ _ 'L' 'U'
          (exists_head_append _ _ _ (exists_head_append _ _ _ ⟨_, rfl⟩)) (unknown_head _) (by decide)) ?_
        simp [execWarns, execOp, heq, heq2, hreset, apply_ite Chip8.warnLog]
      · next heq2 =>
        refine iff_of_false (ne_of_head _ _ 'L' 'U'
          (exists_head_append _ _ _ ⟨_, rfl⟩) (unknown_head _) (by decide)) ?_
        simp [execWarns, execOp, heq, heq2, hreset, apply_ite Chip8.warnLog]
      · next heq2 =>
        refine iff_of_false (ne_of_head _ _ 'L' 'U'
          (exists_head_append _ _ _ ⟨_, rfl⟩) (unknown_head _) (by decide)) ?_
        simp [execWarns, execOp, heq, heq2, hreset, apply_ite Chip8.warnLog]
      · next heq2 =>
        refine iff_of_false (ne_of_head _ _ 'A' 'U'
          (exists_head_append _ _ _ ⟨_, rfl⟩) (unknown_head _) (by decide)) ?_
        simp [execWarns, execOp, heq, heq2, hreset, apply_ite Chip8.warnLog]
      · next heq2 =>
        refine iff_of_false (ne_of_head _ _ 'L' 'U'
          (exists_head_append _ _ _ ⟨_, rfl⟩) (unknown_head _) (by decide)) ?_
        simp [execWarns, execOp, heq, heq2, hreset, apply_ite Chip8.warnLog]
      · next heq2 =>
        refine iff_of_false (ne_of_head _ _ 'L' 'U'
          (exists_head_append _ _ _ ⟨_, rfl⟩) (unknown_head _) (by decide)) ?_
        simp [execWarns, execOp, heq, heq2, hreset, apply_ite Chip8.warnLog]
      · next heq2 =>
        refine iff_of_false (ne_of_head _ _ 'L' 'U'
          (exists_head_append _ _ _ ⟨_, rfl⟩) (unknown_head _) (by decide)) ?_
        simp [execWarns, execOp, heq, heq2, hreset, apply_ite Chip8.warnLog]
      · next heq2 =>
        refine iff_of_false (ne_of_head _ _ 'L' 'U'
          (exists_head_append _ _ _ (exists_head_append _ _ _ ⟨_, rfl⟩)) (unknown_head _) (by decide)) ?_
        simp [execWarns, execOp, heq, heq2, hreset, apply_ite Chip8.warnLog]
      · refine iff_of_true rfl ?_
        simp [execWarns, execOp, heq, hreset, apply_ite Chip8.warnLog]
    · refine iff_of_true rfl ?_
      simp [execWarns, execOp, hreset]
  · intro hz
    refine ⟨?_, ?_⟩
    · simp only [disassembleInstruction, hz]
      split
      · decide
      · decide
      · exact ne_of_head _ _ 'S' 'U'
          (exists_head_append _ _ _ ⟨_, rfl⟩) (unknown_head _) (by decide)
    · simp only [execWarns, execOp, hz]
      split
      · simp [hreset]
      · simp [hreset]
      · refine iff_of_false ?_ ?_
        · simp [hreset]
        · rintro (h | h) <;> exact absurd h (by assumption)

/-- C9, counterexample: the claim says the disassembler returns
`UNKNOWN (<hex>)` precisely for the opcodes on which the executor reports
an unknown-opcode diagnostic.  On 0x0123 the executor warns, yet the
disassembler returns `SYS 123`, not `UNKNOWN (123)`. -/
theorem c9_sys_counterexample :
    disassembleInstruction 0x0123 = "SYS 123" ∧
    execWarns 0x0123 = true ∧
    "SYS 123" ≠ unknownStr 0x0123 := by
  refine ⟨?_, ?_, ?_⟩ <;> decide

/-- C9, witness: the amended agreement applied to the unknown opcode
0x8AB8 and to CLS. -/
theorem c9_amended_witness :
    ((disassembleInstruction 0x8AB8 = unknownStr 0x8AB8) ↔
      execWarns 0x8AB8 = true) ∧
    disassembleInstruction 0x00E0 ≠ unknownStr 0x00E0 :=
  ⟨(c9_amended 0x8AB8 (by norm_num) (by norm_num)).1 (by decide),
   ((c9_amended 0x00E0 (by norm_num) (by norm_num)).2 (by decide)).1⟩


end Chip8Sem
